import Mathlib

/-!
Verification of the NEWStudy article-analysis pipeline (src/complete2.py).

The Python source is shallowly embedded: Python `str` values are modelled as
`String` (or `List Char` where index arithmetic matters), Python lists as
`List`, Python float arithmetic as exact rationals `ℚ`, and the Streamlit
session state as an explicit record threaded through the analysis handler.
External collaborators (the LLM call, `json.loads`, `WebBaseLoader`) are
modelled as parameters: the handler receives the decode outcome as data.
-/

namespace NewStudy

/-! ## Difficulty scoring (`calculate_difficulty`, complete2.py lines 94-125) -/

/-- Helper for `pyTokens`: scans the characters, `acc` holds the current
token's characters in reverse. -/
def pyTokensAux : List Char → List Char → List (List Char)
  | [], acc => if acc = [] then [] else [acc.reverse]
  | c :: rest, acc =>
    if c.isWhitespace then
      if acc = [] then pyTokensAux rest []
      else acc.reverse :: pyTokensAux rest []
    else pyTokensAux rest (c :: acc)

/-- Model of Python `str.split()` with no separator: split on whitespace runs,
discarding empty tokens. -/
def pyTokens (s : String) : List String :=
  (pyTokensAux s.data []).map (fun cs => String.mk cs)

/-- `total_words` accumulated by the loop at lines 102-105. -/
def totalWords (sentences : List String) : Nat :=
  (sentences.map (fun s => (pyTokens s).length)).sum

/-- `complex_words` accumulated by the loop at lines 102-105: tokens longer
than 7 characters. -/
def complexWords (sentences : List String) : Nat :=
  (sentences.map (fun s => ((pyTokens s).filter (fun w => 7 < w.length)).length)).sum

/-- The six-band classification chain at lines 114-125, as a function of the
average sentence length and the complex-word ratio. -/
def bandOf (avg ratio : ℚ) : String :=
  if avg < 10 ∧ ratio < 1/10 then "A1"
  else if avg < 15 ∧ ratio < 15/100 then "A2"
  else if avg < 20 ∧ ratio < 2/10 then "B1"
  else if avg < 25 ∧ ratio < 25/100 then "B2"
  else if avg < 30 ∧ ratio < 3/10 then "C1"
  else "C2"

/-- `calculate_difficulty` (complete2.py lines 94-125). Python float division
is modelled by exact division in `ℚ`. -/
def calculate_difficulty (sentences : List String) : String :=
  if sentences = [] then "A1"
  else if totalWords sentences = 0 then "A1"
  else
    bandOf ((totalWords sentences : ℚ) / (sentences.length : ℚ))
           ((complexWords sentences : ℚ) / (totalWords sentences : ℚ))

/-! ## JSON extraction (complete2.py lines 271-284)

Python `str` values are modelled as `List Char` here because the code works
with character indices (`find`, `rfind`, slicing). -/

/-- First index at which `sub` occurs in `s`, if any: the semantics of
Python `s.find(sub)` restricted to a found result. -/
def findSubIdx (sub : List Char) : List Char → Option Nat
  | [] => if sub.isPrefixOf [] then some 0 else none
  | c :: rest =>
    if sub.isPrefixOf (c :: rest) then some 0
    else (findSubIdx sub rest).map (· + 1)

/-- Python `s.find(sub)`: first index of occurrence, `-1` if absent. -/
def pyFind (s sub : List Char) : Int :=
  (findSubIdx sub s).elim (-1) (fun i => (i : Int))

/-- Python `s.find(sub, start)`: first index of occurrence at or after
`start`, `-1` if absent. -/
def pyFindFrom (s sub : List Char) (start : Nat) : Int :=
  (findSubIdx sub (s.drop start)).elim (-1) (fun i => ((i + start : Nat) : Int))

/-- Python `s.rfind(c)` for a single character: highest index holding `c`,
`-1` if absent. -/
def pyRFindChar (s : List Char) (c : Char) : Int :=
  (s.reverse.findIdx? (fun x => x = c)).elim (-1) (fun j => ((s.length - 1 - j : Nat) : Int))

/-- The whitespace characters stripped by Python `str.strip()` (ASCII part). -/
def pyIsSpace (c : Char) : Bool :=
  c = ' ' ∨ c = '\t' ∨ c = '\n' ∨ c = '\r' ∨ c = '\x0b' ∨ c = '\x0c'

/-- Python `str.strip()`: drop leading and trailing whitespace. -/
def pyStrip (s : List Char) : List Char :=
  ((s.dropWhile pyIsSpace).reverse.dropWhile pyIsSpace).reverse

/-- Normalization of a Python slice endpoint against a length `n`: a negative
endpoint counts from the end, then the result is clamped to `[0, n]`. -/
def pyClamp (n : Nat) (i : Int) : Nat :=
  (if i < 0 then max ((n : Int) + i) 0 else min i (n : Int)).toNat

/-- Python slice `s[a:b]` for `Int` endpoints. -/
def pySlice (s : List Char) (a b : Int) : List Char :=
  (s.take (pyClamp s.length b)).drop (pyClamp s.length a)

/-- The opening fence marker searched for at line 274. -/
def fenceJsonMark : List Char := "```json".data

/-- The closing fence marker searched for at line 276. -/
def fenceMark : List Char := "```".data

/-- The JSON-extraction step of the analysis handler (complete2.py lines
274-283): fenced-block extraction first, then the brace-span fallback, else
the raw text unchanged. -/
def extract_json (result : List Char) : List Char :=
  if (findSubIdx fenceJsonMark result).isSome then
    pyStrip (pySlice result (pyFind result fenceJsonMark + 7)
      (pyFindFrom result fenceMark (pyFind result fenceJsonMark + 7).toNat))
  else if '\x7b' ∈ result ∧ '\x7d' ∈ result then
    pySlice result (pyFind result ['\x7b']) (pyRFindChar result '\x7d' + 1)
  else result

/-! Spec-side restatements of the extraction policy (ModelResponseParser,
spec §4.2), to be compared with `extract_json`. -/

/-- Index of the first `'\x7b'` in `raw` (meaningful when one is present). -/
def firstBrace (raw : List Char) : Nat :=
  raw.findIdx (fun c => c = '\x7b')

/-- Index of the last `'\x7d'` in `raw` (meaningful when one is present). -/
def lastBrace (raw : List Char) : Nat :=
  raw.length - 1 - raw.reverse.findIdx (fun c => c = '\x7d')

/-- Modelled from the spec: "take the substring from the first `\x7b` to the
last `\x7d` inclusive" — the characters at indices
`firstBrace raw .. lastBrace raw`. -/
def greedySpan (raw : List Char) : List Char :=
  (raw.take (lastBrace raw + 1)).drop (firstBrace raw)

/-- Modelled from the spec: "take everything between the `json`-tagged fence
marker and the next closing fence marker", whitespace-trimmed; `none` when the
marker or a closing fence after it is absent. -/
def fencedExtract (raw : List Char) : Option (List Char) :=
  match findSubIdx fenceJsonMark raw with
  | none => none
  | some i =>
    match findSubIdx fenceMark (raw.drop (i + 7)) with
    | none => none
    | some k => some (pyStrip ((raw.drop (i + 7)).take k))

/-! ## Validation and the LearningRecord (complete2.py lines 287-327) -/

/-- The five sequences and topic extracted from the decoded JSON at lines
288-293 (`data.get` defaults already applied). -/
structure RawPayload where
  topic : String
  sentences : List String
  translations : List String
  words : List String
  word_meanings : List String
  word_sentences : List String

/-- Result of the vocabulary length correction: the three lists plus the
warning surfaced via `st.warning`/`st.info` (original three counts and the
corrected count), `none` when no correction fired. -/
structure VocabFix where
  words : List String
  word_meanings : List String
  word_sentences : List String
  warning : Option ((Nat × Nat × Nat) × Nat)

/-- The vocabulary length correction at complete2.py lines 296-305. -/
def fixVocab (words word_meanings word_sentences : List String) : VocabFix :=
  if words.length ≠ word_meanings.length ∨ words.length ≠ word_sentences.length then
    let min_length := min (min words.length word_meanings.length) word_sentences.length
    { words := words.take min_length
      word_meanings := word_meanings.take min_length
      word_sentences := word_sentences.take min_length
      warning := some ((words.length, word_meanings.length, word_sentences.length), min_length) }
  else
    { words := words, word_meanings := word_meanings,
      word_sentences := word_sentences, warning := none }

/-- Result of the sentence/translation length correction, with the warning's
original two counts and corrected count. -/
structure SentFix where
  sentences : List String
  translations : List String
  warning : Option ((Nat × Nat) × Nat)

/-- The sentence/translation length correction at complete2.py lines 307-315. -/
def fixSentences (sentences translations : List String) : SentFix :=
  if sentences.length ≠ translations.length then
    let min_length := min sentences.length translations.length
    { sentences := sentences.take min_length
      translations := translations.take min_length
      warning := some ((sentences.length, translations.length), min_length) }
  else
    { sentences := sentences, translations := translations, warning := none }

/-- The analysis result stored in `st.session_state.analysis_data`
(complete2.py lines 318-326). -/
structure LearningRecord where
  topic : String
  sentences : List String
  translations : List String
  words : List String
  word_meanings : List String
  word_sentences : List String
  difficulty_level : String

/-- The record built at lines 296-326: both length corrections followed by
difficulty scoring over the corrected sentences. -/
def buildRecord (p : RawPayload) : LearningRecord :=
  let v := fixVocab p.words p.word_meanings p.word_sentences
  let s := fixSentences p.sentences p.translations
  { topic := p.topic
    sentences := s.sentences
    translations := s.translations
    words := v.words
    word_meanings := v.word_meanings
    word_sentences := v.word_sentences
    difficulty_level := calculate_difficulty s.sentences }

/-! ## Session state and the analysis handler (complete2.py lines 218-336) -/

/-- The session state touched by the handler: `analysis_data` and
`current_url`. -/
structure SessionState where
  analysis_data : Option LearningRecord
  current_url : String

/-- Outcome of decoding the extracted text, as seen by the `try` block:
`json.loads` success (with field extraction applied), a `JSONDecodeError`, or
any other exception during post-response processing. -/
inductive DecodeResult where
  | ok (p : RawPayload)
  | jsonError (msg : String)
  | otherError (msg : String)

/-- The post-response part of the analysis button handler (complete2.py lines
271-336): on success both session-state fields are stored; each `except`
branch leaves the session state untouched and surfaces the raw response
(`st.code(result)`), returned here as `some raw`. -/
def runAnalysis (prior : SessionState) (urlInput : String)
    (decoded : DecodeResult) (raw : String) : SessionState × Option String :=
  match decoded with
  | .ok p => ({ analysis_data := some (buildRecord p), current_url := urlInput }, none)
  | .jsonError _ => (prior, some raw)
  | .otherError _ => (prior, some raw)

/-! ## Export rendering (complete2.py lines 205-212 and 388-406) -/

/-- Helper mirroring `enumerate(zip(sentences, translations), start)`:
one numbered block per aligned pair, the tail of the longer list dropped. -/
def pdfBlocksFrom (start : Nat) : List String → List String → List (Nat × String × String)
  | s :: ss, t :: ts => (start, s, t) :: pdfBlocksFrom (start + 1) ss ts
  | _, _ => []

/-- The numbered sentence/translation blocks appended to the PDF story by the
loop at complete2.py lines 205-212 (`enumerate(zip(...), 1)`). -/
def create_pdf_blocks (sentences translations : List String) : List (Nat × String × String) :=
  pdfBlocksFrom 1 sentences translations

/-- Row-wise pairing of the three vocabulary columns, as in the DataFrame
built at complete2.py lines 389-393 (pandas pairs equal-length columns
positionally). -/
def vocabRows : List String → List String → List String → List (List String)
  | w :: ws, m :: ms, e :: es => [w, m, e] :: vocabRows ws ms es
  | _, _, _ => []

/-- The vocabulary table rendered to CSV at complete2.py lines 389-399
(`to_csv(index=False)`), modelled structurally: the header row of column
names followed by one row per entry. -/
def vocab_table (words word_meanings word_sentences : List String) : List (List String) :=
  ["단어", "뜻", "예문"] :: vocabRows words word_meanings word_sentences

/-! ## Helper lemmas -/

lemma fixSentences_aligned (s t : List String) :
    (fixSentences s t).sentences.length = (fixSentences s t).translations.length := by
  unfold fixSentences
  split_ifs with h
  · simp [List.length_take]
  · simpa using of_not_not (by simpa using h)

lemma fixVocab_aligned (w m e : List String) :
    (fixVocab w m e).words.length = (fixVocab w m e).word_meanings.length ∧
    (fixVocab w m e).word_meanings.length = (fixVocab w m e).word_sentences.length := by
  unfold fixVocab
  split_ifs with h
  · dsimp only
    simp only [List.length_take]
    omega
  · dsimp only
    push_neg at h
    omega

lemma difficulty_of_totalWords_zero (ss : List String) (h : totalWords ss = 0) :
    calculate_difficulty ss = "A1" := by
  unfold calculate_difficulty
  split_ifs <;> simp_all

end NewStudy

namespace NewStudy

/-! ## Claim theorems: difficulty scoring -/

/-- C6: the difficulty scorer returns A1 for the empty sentence sequence and
for every sequence whose total whitespace-token count is zero, and it is a
total function (no failure mode on these inputs). -/
theorem calculate_difficulty_zero :
    calculate_difficulty [] = "A1" ∧
    ∀ ss : List String, totalWords ss = 0 → calculate_difficulty ss = "A1" :=
  ⟨rfl, difficulty_of_totalWords_zero⟩

/-- Witness for C6 at concrete inputs, including a non-empty sequence of
whitespace-only sentences. -/
theorem calculate_difficulty_zero_witness :
    calculate_difficulty [] = "A1" ∧ calculate_difficulty ["", "   "] = "A1" :=
  ⟨calculate_difficulty_zero.1, calculate_difficulty_zero.2 ["", "   "] (by decide)⟩

/-- C5: on every non-empty input with a positive token count, the scorer is
exactly the six-band first-match-wins classification of the average sentence
length and complex-word ratio, its value is always one of A1..C2, and the
band table sends average length 22 with ratio 0.22 to B2. -/
theorem calculate_difficulty_bands (sentences : List String)
    (h1 : sentences ≠ []) (h2 : 0 < totalWords sentences) :
    calculate_difficulty sentences =
      bandOf ((totalWords sentences : ℚ) / (sentences.length : ℚ))
             ((complexWords sentences : ℚ) / (totalWords sentences : ℚ)) ∧
    (calculate_difficulty sentences = "A1" ∨ calculate_difficulty sentences = "A2" ∨
     calculate_difficulty sentences = "B1" ∨ calculate_difficulty sentences = "B2" ∨
     calculate_difficulty sentences = "C1" ∨ calculate_difficulty sentences = "C2") ∧
    bandOf 22 (22/100) = "B2" := by
  have hne : totalWords sentences ≠ 0 := Nat.pos_iff_ne_zero.mp h2
  refine ⟨by simp [calculate_difficulty, h1, hne], ?_, ?_⟩
  · unfold calculate_difficulty bandOf
    split_ifs <;> simp
  · unfold bandOf
    norm_num

/-- Witness for C5 at a concrete non-empty input with positive token count. -/
theorem calculate_difficulty_bands_witness :
    calculate_difficulty ["alpha beta gamma"] =
      bandOf ((totalWords ["alpha beta gamma"] : ℚ) / (([ "alpha beta gamma"] : List String).length : ℚ))
             ((complexWords ["alpha beta gamma"] : ℚ) / (totalWords ["alpha beta gamma"] : ℚ)) ∧
    (calculate_difficulty ["alpha beta gamma"] = "A1" ∨ calculate_difficulty ["alpha beta gamma"] = "A2" ∨
     calculate_difficulty ["alpha beta gamma"] = "B1" ∨ calculate_difficulty ["alpha beta gamma"] = "B2" ∨
     calculate_difficulty ["alpha beta gamma"] = "C1" ∨ calculate_difficulty ["alpha beta gamma"] = "C2") ∧
    bandOf 22 (22/100) = "B2" :=
  calculate_difficulty_bands ["alpha beta gamma"] (by decide) (by decide)

/-! ## Claim theorems: validation and session state -/

/-- C1: every record stored by a successful analysis run is the validated
record, and it satisfies both alignment invariants. -/
theorem stored_record_invariants (prior : SessionState) (url : String)
    (p : RawPayload) (raw : String) :
    ((runAnalysis prior url (.ok p) raw).1.analysis_data = some (buildRecord p)) ∧
    (buildRecord p).sentences.length = (buildRecord p).translations.length ∧
    (buildRecord p).words.length = (buildRecord p).word_meanings.length ∧
    (buildRecord p).word_meanings.length = (buildRecord p).word_sentences.length := by
  refine ⟨rfl, ?_, ?_, ?_⟩
  · exact fixSentences_aligned p.sentences p.translations
  · exact (fixVocab_aligned p.words p.word_meanings p.word_sentences).1
  · exact (fixVocab_aligned p.words p.word_meanings p.word_sentences).2

/-- C7: on a JSON-decode failure, and on any other exception during
post-response processing, the session state is returned unchanged (both the
stored record and the current URL) and the raw response is surfaced. -/
theorem runAnalysis_failure_keeps_state (prior : SessionState)
    (url raw msg : String) :
    runAnalysis prior url (.jsonError msg) raw = (prior, some raw) ∧
    runAnalysis prior url (.otherError msg) raw = (prior, some raw) :=
  ⟨rfl, rfl⟩

/-- C2: whenever the three vocabulary lengths are not all equal, the
validator truncates all three lists to the minimum length (keeping the
earliest elements: each output is a prefix of its input) and surfaces a
warning carrying the three original counts and the corrected count. -/
theorem fixVocab_mismatch_truncates (w m e : List String)
    (h : ¬ (w.length = m.length ∧ w.length = e.length)) :
    (fixVocab w m e).words = w.take (min (min w.length m.length) e.length) ∧
    (fixVocab w m e).word_meanings = m.take (min (min w.length m.length) e.length) ∧
    (fixVocab w m e).word_sentences = e.take (min (min w.length m.length) e.length) ∧
    (fixVocab w m e).warning =
      some ((w.length, m.length, e.length), min (min w.length m.length) e.length) ∧
    (fixVocab w m e).words <+: w ∧
    (fixVocab w m e).word_meanings <+: m ∧
    (fixVocab w m e).word_sentences <+: e := by
  have h' : w.length ≠ m.length ∨ w.length ≠ e.length := by tauto
  unfold fixVocab
  rw [if_pos h']
  exact ⟨rfl, rfl, rfl, rfl,
    ⟨w.drop _, List.take_append_drop _ w⟩,
    ⟨m.drop _, List.take_append_drop _ m⟩,
    ⟨e.drop _, List.take_append_drop _ e⟩⟩

/-- Witness for C2 at the spec's example shape: lengths (5, 3, 5) truncate to
the first 3 of each with warning counts ((5,3,5),3). -/
theorem fixVocab_mismatch_truncates_witness :
    (fixVocab ["w1","w2","w3","w4","w5"] ["m1","m2","m3"] ["e1","e2","e3","e4","e5"]).words
      = ["w1","w2","w3"] ∧
    (fixVocab ["w1","w2","w3","w4","w5"] ["m1","m2","m3"] ["e1","e2","e3","e4","e5"]).word_meanings
      = ["m1","m2","m3"] ∧
    (fixVocab ["w1","w2","w3","w4","w5"] ["m1","m2","m3"] ["e1","e2","e3","e4","e5"]).word_sentences
      = ["e1","e2","e3"] ∧
    (fixVocab ["w1","w2","w3","w4","w5"] ["m1","m2","m3"] ["e1","e2","e3","e4","e5"]).warning
      = some ((5, 3, 5), 3) := by
  obtain ⟨hw, hm, he, hwarn, -, -, -⟩ :=
    fixVocab_mismatch_truncates ["w1","w2","w3","w4","w5"] ["m1","m2","m3"]
      ["e1","e2","e3","e4","e5"] (by decide)
  exact ⟨by simpa using hw, by simpa using hm, by simpa using he, by simpa using hwarn⟩

end NewStudy

namespace NewStudy

/-! ## Helper lemmas for the export renderers -/

lemma vocabRows_length (w : List String) : ∀ (m e : List String),
    w.length = m.length → m.length = e.length →
    (vocabRows w m e).length = w.length := by
  induction w with
  | nil => intro m e _ _; simp [vocabRows]
  | cons x xs ih =>
    intro m e h1 h2
    cases m with
    | nil => simp at h1
    | cons y ys =>
      cases e with
      | nil => simp at h2
      | cons z zs =>
        simp only [vocabRows, List.length_cons]
        rw [ih ys zs (by simpa using h1) (by simpa using h2)]

lemma vocabRows_get (w : List String) : ∀ (m e : List String) (i : Nat) (a b c : String),
    w.get? i = some a → m.get? i = some b → e.get? i = some c →
    (vocabRows w m e).get? i = some [a, b, c] := by
  induction w with
  | nil => intro m e i a b c ha _ _; simp at ha
  | cons x xs ih =>
    intro m e i a b c ha hb hc
    cases m with
    | nil => simp at hb
    | cons y ys =>
      cases e with
      | nil => simp at hc
      | cons z zs =>
        cases i with
        | zero =>
          simp only [List.get?] at ha hb hc
          injection ha with ha; injection hb with hb; injection hc with hc
          subst ha; subst hb; subst hc
          rfl
        | succ j =>
          simp only [List.get?] at ha hb hc
          simpa [vocabRows] using ih ys zs j a b c ha hb hc

lemma pdfBlocksFrom_length (ss : List String) : ∀ (k : Nat) (ts : List String),
    (pdfBlocksFrom k ss ts).length = min ss.length ts.length := by
  induction ss with
  | nil => intro k ts; cases ts <;> simp [pdfBlocksFrom]
  | cons s ss ih =>
    intro k ts
    cases ts with
    | nil => simp [pdfBlocksFrom]
    | cons t ts =>
      simp only [pdfBlocksFrom, List.length_cons, ih]
      omega

lemma pdfBlocksFrom_get (ss : List String) : ∀ (k i : Nat) (ts : List String) (a b : String),
    ss.get? i = some a → ts.get? i = some b →
    (pdfBlocksFrom k ss ts).get? i = some (k + i, a, b) := by
  induction ss with
  | nil => intro k i ts a b ha _; simp at ha
  | cons s ss ih =>
    intro k i ts a b ha hb
    cases ts with
    | nil => simp at hb
    | cons t ts =>
      cases i with
      | zero =>
        simp only [List.get?] at ha hb
        injection ha with ha; injection hb with hb
        subst ha; subst hb
        rfl
      | succ j =>
        simp only [List.get?] at ha hb
        have := ih (k + 1) j ts a b ha hb
        simpa [pdfBlocksFrom, Nat.add_assoc, Nat.add_comm 1 j] using this

/-! ## Claim theorems: export rendering -/

/-- C8: for equal-length vocabulary columns, the rendered table is the header
row 단어,뜻,예문 followed by exactly one data row per entry, row i holding the
i-th word, meaning and example, in order. -/
theorem vocab_table_shape (w m e : List String)
    (h1 : w.length = m.length) (h2 : m.length = e.length) :
    (vocab_table w m e).length = w.length + 1 ∧
    (vocab_table w m e).get? 0 = some ["단어", "뜻", "예문"] ∧
    ∀ (i : Nat) (a b c : String),
      w.get? i = some a → m.get? i = some b → e.get? i = some c →
      (vocab_table w m e).get? (i + 1) = some [a, b, c] := by
  refine ⟨?_, rfl, ?_⟩
  · simp [vocab_table, vocabRows_length w m e h1 h2]
  · intro i a b c ha hb hc
    simpa [vocab_table] using vocabRows_get w m e i a b c ha hb hc

/-- Witness for C8 on a one-entry vocabulary. -/
theorem vocab_table_shape_witness :
    (vocab_table ["apple"] ["사과"] ["an apple"]).length = 2 ∧
    (vocab_table ["apple"] ["사과"] ["an apple"]).get? 0 = some ["단어", "뜻", "예문"] ∧
    (vocab_table ["apple"] ["사과"] ["an apple"]).get? 1 = some ["apple", "사과", "an apple"] := by
  obtain ⟨hl, hh, hr⟩ := vocab_table_shape ["apple"] ["사과"] ["an apple"] rfl rfl
  exact ⟨hl, hh, hr 0 "apple" "사과" "an apple" rfl rfl rfl⟩

/-- C10: the sentence-document renderer pairs the two lists positionally:
it always produces exactly min(len sentences, len translations) blocks, the
i-th block numbered i+1 and holding the i-th sentence and translation, so an
unpaired tail is silently dropped and no length mismatch can fail. -/
theorem create_pdf_blocks_pairs (sentences translations : List String) :
    (create_pdf_blocks sentences translations).length
      = min sentences.length translations.length ∧
    ∀ (i : Nat) (a b : String),
      sentences.get? i = some a → translations.get? i = some b →
      (create_pdf_blocks sentences translations).get? i = some (i + 1, a, b) := by
  refine ⟨pdfBlocksFrom_length sentences 1 translations, ?_⟩
  intro i a b ha hb
  simpa [Nat.add_comm 1 i] using pdfBlocksFrom_get sentences 1 i translations a b ha hb

/-- Witness for C10 on mismatched lengths 2 and 1: one block, numbered 1. -/
theorem create_pdf_blocks_pairs_witness :
    (create_pdf_blocks ["s1", "s2"] ["t1"]).length = 1 ∧
    (create_pdf_blocks ["s1", "s2"] ["t1"]).get? 0 = some (1, "s1", "t1") := by
  obtain ⟨hl, hg⟩ := create_pdf_blocks_pairs ["s1", "s2"] ["t1"]
  exact ⟨by simpa using hl, hg 0 "s1" "t1" rfl rfl⟩

end NewStudy

namespace NewStudy

/-! ## Helper lemmas for the JSON-extraction step -/

lemma findSubIdx_drop {sub s : List Char} {i : Nat}
    (h : findSubIdx sub s = some i) : sub <+: s.drop i := by
  induction s generalizing i with
  | nil =>
    unfold findSubIdx at h
    split_ifs at h with hp
    injection h with h
    subst h
    simpa using hp
  | cons c rest ih =>
    unfold findSubIdx at h
    split_ifs at h with hp
    · injection h with h
      subst h
      simpa using hp
    · rw [Option.map_eq_some'] at h
      obtain ⟨j, hj, rfl⟩ := h
      simpa using ih hj

lemma findSubIdx_bound (sub s : List Char) (i : Nat) (hs : sub ≠ [])
    (h : findSubIdx sub s = some i) : i + sub.length ≤ s.length := by
  have hl := (findSubIdx_drop h).length_le
  simp only [List.length_drop] at hl
  have hpos : 0 < sub.length := List.length_pos.mpr hs
  omega

lemma findSubIdx_single (c : Char) (s : List Char) (h : c ∈ s) :
    findSubIdx [c] s = some (s.findIdx (fun x => x = c)) := by
  induction s with
  | nil => simp at h
  | cons x t ih =>
    by_cases hx : x = c
    · subst hx
      unfold findSubIdx
      rw [if_pos (by simp)]
      simp [List.findIdx_cons]
    · have hc : c ∈ t := by
        rcases List.mem_cons.mp h with h1 | h1
        · exact absurd h1.symm hx
        · exact h1
      unfold findSubIdx
      rw [if_neg (by simp [Ne.symm hx])]
      rw [ih hc]
      simp [List.findIdx_cons, hx, Ne.symm hx]

lemma pyClamp_nat (n a : Nat) (h : a ≤ n) : pyClamp n (a : Int) = a := by
  unfold pyClamp
  rw [if_neg (by omega)]
  omega

lemma pyClamp_neg_one (n : Nat) (h : 1 ≤ n) : pyClamp n (-1) = n - 1 := by
  unfold pyClamp
  rw [if_pos (by omega)]
  omega

lemma pySlice_nat (s : List Char) (a b : Nat)
    (ha : a ≤ s.length) (hb : b ≤ s.length) :
    pySlice s (a : Int) (b : Int) = (s.take b).drop a := by
  unfold pySlice
  rw [pyClamp_nat s.length a ha, pyClamp_nat s.length b hb]

lemma pySlice_neg_one (s : List Char) (a : Nat)
    (ha : a ≤ s.length) (hn : 1 ≤ s.length) :
    pySlice s (a : Int) (-1) = (s.take (s.length - 1)).drop a := by
  unfold pySlice
  rw [pyClamp_nat s.length a ha, pyClamp_neg_one s.length hn]

/-! ## Claim theorems: JSON extraction -/

/-- C4: whenever the raw text contains the `json`-tagged fence marker and a
closing fence after it, the extraction step returns exactly the
whitespace-trimmed text between the end of the marker and the next closing
fence (the spec-side `fencedExtract`). -/
theorem extract_json_fenced (raw out : List Char)
    (h : fencedExtract raw = some out) : extract_json raw = out := by
  unfold fencedExtract at h
  cases h1 : findSubIdx fenceJsonMark raw with
  | none => rw [h1] at h; simp at h
  | some i =>
    simp only [h1] at h
    cases h2 : findSubIdx fenceMark (raw.drop (i + 7)) with
    | none =>
      simp only [h2] at h
      exact absurd h (by simp)
    | some k =>
      simp only [h2, Option.some.injEq] at h
      subst h
      have hb1 : i + 7 ≤ raw.length := by
        have hb := findSubIdx_bound fenceJsonMark raw i (by decide) h1
        have hlen : fenceJsonMark.length = 7 := rfl
        omega
      have hb2 : k + 3 ≤ raw.length - (i + 7) := by
        have hb := findSubIdx_bound fenceMark (raw.drop (i + 7)) k (by decide) h2
        have hlen : fenceMark.length = 3 := rfl
        simp only [List.length_drop] at hb
        omega
      unfold extract_json
      rw [if_pos (by simp [h1])]
      have hfind : pyFind raw fenceJsonMark = (i : Int) := by simp [pyFind, h1]
      rw [hfind]
      have hstart : ((i : Int) + 7).toNat = i + 7 := by omega
      rw [hstart]
      have hfrom : pyFindFrom raw fenceMark (i + 7) = ((k + (i + 7) : Nat) : Int) := by
        simp [pyFindFrom, h2]
      rw [hfrom]
      have hc : ((i : Int) + 7) = ((i + 7 : Nat) : Int) := by push_cast; ring
      rw [hc]
      rw [pySlice_nat raw (i + 7) (k + (i + 7)) hb1 (by omega)]
      exact congrArg pyStrip (by rw [List.take_drop, Nat.add_comm k (i + 7)])

/-- Witness for C4 at the spec's example input. -/
theorem extract_json_fenced_witness :
    extract_json "prefix ```json \x7b\"a\":1\x7d ``` suffix".data = "\x7b\"a\":1\x7d".data :=
  extract_json_fenced "prefix ```json \x7b\"a\":1\x7d ``` suffix".data
    "\x7b\"a\":1\x7d".data (by decide)

/-- C3: when the raw text has no `json`-tagged fence marker but contains at
least one opening and one closing brace, the extraction step returns exactly
the greedy span from the first opening brace to the last closing brace
inclusive. -/
theorem extract_json_brace_span (raw : List Char)
    (h1 : findSubIdx fenceJsonMark raw = none)
    (h2 : '\x7b' ∈ raw) (h3 : '\x7d' ∈ raw) :
    extract_json raw = greedySpan raw := by
  unfold extract_json
  rw [if_neg (by simp [h1])]
  rw [if_pos ⟨h2, h3⟩]
  have hf : pyFind raw ['\x7b'] = ((firstBrace raw : Nat) : Int) := by
    simp [pyFind, findSubIdx_single '\x7b' raw h2, firstBrace]
  have hrev : '\x7d' ∈ raw.reverse := List.mem_reverse.mpr h3
  have hsome : raw.reverse.findIdx? (fun x => x = '\x7d')
      = some (raw.reverse.findIdx (fun x => x = '\x7d')) := by
    rw [List.findIdx?_eq_some_iff_findIdx_eq]
    exact ⟨List.findIdx_lt_length_of_exists ⟨_, hrev, by simp⟩, rfl⟩
  have hr : pyRFindChar raw '\x7d' = ((lastBrace raw : Nat) : Int) := by
    simp [pyRFindChar, hsome, lastBrace]
  rw [hf, hr]
  have hn : 0 < raw.length := List.length_pos.mpr (by rintro rfl; simp at h2)
  have hfb : firstBrace raw < raw.length :=
    List.findIdx_lt_length_of_exists ⟨_, h2, by simp⟩
  have hlb : lastBrace raw < raw.length := by
    unfold lastBrace
    omega
  have hc : ((lastBrace raw : Nat) : Int) + 1 = ((lastBrace raw + 1 : Nat) : Int) := by
    push_cast
    ring
  rw [hc]
  rw [pySlice_nat raw (firstBrace raw) (lastBrace raw + 1) (by omega) (by omega)]
  rfl

/-- Witness for C3 at the spec's example input. -/
theorem extract_json_brace_span_witness :
    extract_json "noise \x7b\"a\":1\x7d more \x7b\"b\":2\x7d noise".data
      = "\x7b\"a\":1\x7d more \x7b\"b\":2\x7d".data := by
  have h := extract_json_brace_span "noise \x7b\"a\":1\x7d more \x7b\"b\":2\x7d noise".data
    (by decide) (by decide) (by decide)
  exact h.trans (by decide)

/-- C9: when the raw text contains the `json`-tagged fence marker at index
`i` but no closing fence anywhere after it, the extraction step returns the
whitespace-trimmed characters from just after the marker up to but excluding
the final character of the raw text (the `-1` of the failed search acting as
a slice endpoint). -/
theorem extract_json_unclosed_fence (raw : List Char) (i : Nat)
    (h1 : findSubIdx fenceJsonMark raw = some i)
    (h2 : findSubIdx fenceMark (raw.drop (i + 7)) = none) :
    extract_json raw = pyStrip ((raw.take (raw.length - 1)).drop (i + 7)) := by
  have hb1 : i + 7 ≤ raw.length := by
    have hb := findSubIdx_bound fenceJsonMark raw i (by decide) h1
    have hlen : fenceJsonMark.length = 7 := rfl
    omega
  unfold extract_json
  rw [if_pos (by simp [h1])]
  have hfind : pyFind raw fenceJsonMark = (i : Int) := by simp [pyFind, h1]
  rw [hfind]
  have hstart : ((i : Int) + 7).toNat = i + 7 := by omega
  rw [hstart]
  have hfrom : pyFindFrom raw fenceMark (i + 7) = -1 := by simp [pyFindFrom, h2]
  rw [hfrom]
  have hc : ((i : Int) + 7) = ((i + 7 : Nat) : Int) := by push_cast; ring
  rw [hc]
  rw [pySlice_neg_one raw (i + 7) hb1 (by omega)]

/-- Witness for C9: a fenced opening with no closing fence drops the final
closing brace of the payload. -/
theorem extract_json_unclosed_fence_witness :
    extract_json "```json \x7b\"a\":1\x7d".data = "\x7b\"a\":1".data := by
  have h := extract_json_unclosed_fence "```json \x7b\"a\":1\x7d".data 0 (by decide) (by decide)
  exact h.trans (by decide)

end NewStudy
